import Mathlib

/-!
# Rosenbrock demo for the l-BFGS / NLCG / Newton-CG driver

A shallow embedding of `rosenbrock.c` and of the driver in `main.c`.

* `float` values are read as elements of a field `α` (exact arithmetic); the
  theorems about the objective instantiate `α := ℝ`, executable checks use `ℚ`.
* A `float *` buffer is a `List α`; `a[i]` is `a.getD i 0` and `a[i] = v` is
  `a.set i v`.
* `int` values are `Int`; the only arithmetic on them is `iter++` below `niter`,
  which cannot overflow.
-/

namespace Rosenbrock

/-! ## rosenbrock.c -/

/-- The objective and its gradient, `rosenbrock_fg(x, g)`: returns `fcost` together with
the new contents of the buffer `g`. -/
def rosenbrock_fg {α : Type} [Field α] (x g : List α) : α × List α :=
  let tmp1 := 1 - x.getD 0 0
  let tmp2 := x.getD 1 0 - x.getD 0 0 * x.getD 0 0
  let fcost := tmp1 * tmp1 + 100 * tmp2 * tmp2
  let g := g.set 0 (-2 * tmp1 - 400 * x.getD 0 0 * tmp2)
  let g := g.set 1 (200 * tmp2)
  (fcost, g)

/-- The Hessian-vector product, `rosenbrock_Hv(x, v, Hv)`: returns the new contents of the
buffer `Hv`. -/
def rosenbrock_Hv {α : Type} [Field α] (x v Hv : List α) : List α :=
  let Hv := Hv.set 0
    ((1200 * x.getD 0 0 * x.getD 0 0 - 400 * x.getD 1 0 + 2) * v.getD 0 0
      - 400 * x.getD 0 0 * v.getD 1 0)
  let Hv := Hv.set 1 (-400 * x.getD 0 0 * v.getD 0 0 + 200 * v.getD 1 0)
  Hv

/-! ## optim.h -/

/-- The record `optim_t` of `optim.h` (`main.c` names it `lbfgs_t`, through a header with the
same include guard). Buffers are stored by content. -/
structure optim_t (α : Type) where
  niter : Int
  iter : Int
  tol : α
  npair : Int
  kpair : Int
  nls : Int
  ils : Int
  igrad : Int
  c1 : α
  c2 : α
  alpha : α
  f0 : α
  fk : α
  gk_norm : α
  x : List α
  g : List α
  d : List α
  sk : List (List α)
  yk : List (List α)
  q : List α
  alp : List α
  rho : List α
  bound : Int
  xmin : List α
  xmax : List α
  verb : Int
  preco : Int
  ncg : Int
  method : Int
  loop1 : Bool
  ls_fail : Int

/-- The callback type `optim_fg`: `(x, g) ↦ (cost, new g)`. -/
abbrev optim_fg (α : Type) := List α → List α → α × List α

/-- The callback type `optim_Hv`: `(x, v, Hv) ↦ new Hv`. -/
abbrev optim_Hv (α : Type) := List α → List α → List α → List α

/-- The routines declared in `optim.h` that `main` calls and whose bodies are not among the
sources; they are parameters of the driver. Every buffer `main` hands them (`opt->x`, `opt->g`,
`opt->d`, `opt->sk`, `opt->yk`) is a field of the record they receive as well, so each is a
function of `n`, its callback and the record. -/
structure Routines (α : Type) where
  l2norm : Nat → List α → α
  lbfgs_save : Nat → optim_t α → optim_t α
  lbfgs_update : Nat → optim_t α → optim_t α
  lbfgs_descent : Nat → optim_t α → optim_t α
  line_search : Nat → optim_fg α → optim_t α → optim_t α
  /-- Modelled from the spec: `cg_solve(n, x, g, d, Hv, opt)` is declared in `optim.h` and its
  body is missing. It is the spec's Newton-CG solver, which from `x`, `g` and the
  Hessian-vector callback "solves the linear system `H(x)·d = -g` approximately", capped at
  `ncg` inner iterations, "returning the best direction found so far": the parameter delivers
  the new contents of `opt->d`, the one thing the solver is specified to produce. -/
  cg_solve : Nat → optim_Hv α → optim_t α → List α

/-- Modelled from the spec: `dotprod(n, a, b)` is declared in `optim.h` ("dot product of two
vectors") and its body is missing; the spec's VectorOps component gives the exact dot product
of the first `n` entries. -/
def dotprod {α : Type} [Field α] (n : Nat) (a b : List α) : α :=
  (List.range n).foldl (fun s i => s + a.getD i 0 * b.getD i 0) 0

/-- Modelled from the spec: `flipsign(n, a, b)` is declared in `optim.h` ("reverse the sign of
the vector") and its body is missing; the spec's VectorOps sign-flip writes `b[i] = -a[i]` for
`i < n`. Returns the new contents of `b`. -/
def flipsign {α : Type} [Field α] (n : Nat) (a b : List α) : List α :=
  (List.range n).foldl (fun b i => b.set i (-(a.getD i 0))) b

/-- The C library's `memcpy(dst, src, n*sizeof(float))`: the first `n` entries of `dst` are
overwritten by those of `src`. -/
def memcpy {α : Type} [Field α] (dst src : List α) (n : Nat) : List α :=
  (List.range n).foldl (fun dst i => dst.set i (src.getD i 0)) dst

/-! ## main.c -/

/-- A line of `iterate.txt` written inside or after the optimisation loop. -/
inductive Line (α : Type) where
  /-- the progress record `iter fk fk/f0 ||gk|| alpha nls ngrad` -/
  | iterate (iter : Int) (fk rel gk_norm alpha : α) (ils igrad : Int)
  /-- the line `==> Line search failed!` -/
  | ls_failed
  /-- the line `==> Convergence reached!` -/
  | converged
  /-- the line `==> Maximum iteration number reached!` -/
  | max_iter

/-- What `main` owns during the loop: the record `opt`, the local buffer `g0` and the contents
of `iterate.txt`. Output to stdout is not modelled. -/
structure main_t (α : Type) where
  opt : optim_t α
  g0 : List α
  iterate_txt : List (Line α)

/-- The dimension `n = 2` set by `main`. -/
def main_n : Nat := 2

/-- Lines 38–47 of `main.c`: every option takes the command-line value when `getparint` /
`getparfloat` finds one (`some v`) and its default otherwise. -/
def main_config {α : Type} [Field α] (getparint : String → Option Int)
    (getparfloat : String → Option α) (opt : optim_t α) : optim_t α :=
  let opt := match getparint "niter" with
    | some v => { opt with niter := v } | none => { opt with niter := 100 }
  let opt := match getparint "nls" with
    | some v => { opt with nls := v } | none => { opt with nls := 20 }
  let opt := match getparfloat "tol" with
    | some v => { opt with tol := v } | none => { opt with tol := 1e-8 }
  let opt := match getparint "npair" with
    | some v => { opt with npair := v } | none => { opt with npair := 5 }
  let opt := match getparfloat "c1" with
    | some v => { opt with c1 := v } | none => { opt with c1 := 1e-4 }
  let opt := match getparfloat "c2" with
    | some v => { opt with c2 := v } | none => { opt with c2 := 0.9 }
  let opt := match getparfloat "alpha" with
    | some v => { opt with alpha := v } | none => { opt with alpha := 1 }
  let opt := match getparint "bound" with
    | some v => { opt with bound := v } | none => { opt with bound := 0 }
  let opt := match getparint "method" with
    | some v => { opt with method := v } | none => { opt with method := 2 }
  let opt := match getparint "ncg" with
    | some v => { opt with ncg := v } | none => { opt with ncg := 5 }
  opt

/-- One `fopen("iterate.txt","a")`, `fprintf`, `fclose`: the line is appended to the file. -/
def main_fprintf {α : Type} (st : main_t α) (l : Line α) : main_t α :=
  { st with iterate_txt := st.iterate_txt ++ [l] }

/-- Lines 88–96: the progress record, written when `verb` is set. -/
def main_progress {α : Type} [Field α] (R : Routines α) (st : main_t α) : main_t α :=
  if st.opt.verb ≠ 0 then
    let st : main_t α := { st with opt := { st.opt with gk_norm := R.l2norm main_n st.opt.g } }
    main_fprintf st
      (Line.iterate st.opt.iter st.opt.fk (st.opt.fk / st.opt.f0) st.opt.gk_norm st.opt.alpha
        st.opt.ils st.opt.igrad)
  else st

/-- Line 99, the branch `method == 0`: Newton-CG. -/
def main_newton_cg {α : Type} [Field α] (R : Routines α) (st : main_t α) : main_t α :=
  { st with opt := { st.opt with d := R.cg_solve main_n rosenbrock_Hv st.opt } }

/-- Lines 103–109, the branch `method == 1`: l-BFGS. -/
def main_lbfgs {α : Type} [Field α] (R : Routines α) (st : main_t α) : main_t α :=
  let opt :=
    if st.opt.iter = 0 then
      { st.opt with d := flipsign main_n st.opt.g st.opt.d }
    else
      R.lbfgs_descent main_n (R.lbfgs_update main_n st.opt)
  { st with opt := R.lbfgs_save main_n opt }

/-- Lines 112–118, the branch `method == 2`: NLCG. -/
def main_nlcg {α : Type} [Field α] (st : main_t α) : main_t α :=
  let d :=
    if st.opt.iter = 0 then
      (List.range main_n).foldl (fun d i => d.set i (-(st.opt.g.getD i 0))) st.opt.d
    else
      let beta := dotprod main_n st.opt.g st.opt.g / dotprod main_n st.g0 st.g0
      (List.range main_n).foldl
        (fun d i => d.set i (-(st.opt.g.getD i 0) + beta * d.getD i 0)) st.opt.d
  { st with opt := { st.opt with d := d }, g0 := memcpy st.g0 st.opt.g main_n }

/-- Lines 98–120: the dispatch on `method`. -/
def main_direction {α : Type} [Field α] (R : Routines α) (st : main_t α) : main_t α :=
  if st.opt.method = 0 then main_newton_cg R st
  else if st.opt.method = 1 then main_lbfgs R st
  else if st.opt.method = 2 then main_nlcg st
  else st

/-- Line 121: the line search on the objective `rosenbrock_fg`. -/
def main_line_search {α : Type} [Field α] (R : Routines α) (st : main_t α) : main_t α :=
  { st with opt := R.line_search main_n rosenbrock_fg st.opt }

/-- How one pass through the loop body ends: by `break`, or by falling through to `iter++`. -/
inductive Step (σ : Type) where
  | brk (s : σ)
  | next (s : σ)

/-- Lines 123–138: the two `break` tests after the line search. -/
def main_check {α : Type} [LinearOrderedField α] (st : main_t α) : Step (main_t α) :=
  if st.opt.ls_fail ≠ 0 then
    Step.brk (if st.opt.verb ≠ 0 then main_fprintf st Line.ls_failed else st)
  else if st.opt.fk < st.opt.tol * st.opt.f0 then
    Step.brk (if st.opt.verb ≠ 0 then main_fprintf st Line.converged else st)
  else Step.next st

/-- Lines 88–138: the body of the loop. -/
def main_body {α : Type} [LinearOrderedField α] (R : Routines α) (st : main_t α) :
    Step (main_t α) :=
  main_check (main_line_search R (main_direction R (main_progress R st)))

/-- The increment `opt->iter++` of the loop. -/
def main_incr {α : Type} (st : main_t α) : main_t α :=
  { st with opt := { st.opt with iter := st.opt.iter + 1 } }

/-- Lines 87–139 from the loop test on: `none` when the fuel runs out before the loop ends. -/
def main_for {α : Type} [LinearOrderedField α] (R : Routines α) :
    Nat → main_t α → Option (main_t α)
  | 0, _ => none
  | fuel + 1, st =>
    if st.opt.iter < st.opt.niter then
      match main_body R st with
      | Step.brk s => some s
      | Step.next s => main_for R fuel (main_incr s)
    else some st

/-- Lines 140–147: the report written after the loop when `verb` is set. -/
def main_exit {α : Type} (st : main_t α) : main_t α :=
  if st.opt.verb ≠ 0 then
    if st.opt.iter = st.opt.niter then main_fprintf st Line.max_iter else st
  else st

/-- Lines 87–147 from the loop test on: the rest of the loop, then the report after it. -/
def main_from {α : Type} [LinearOrderedField α] (R : Routines α) (fuel : Nat)
    (st : main_t α) : Option (main_t α) :=
  (main_for R fuel st).map main_exit

/-- Lines 87–147: the loop, entered with `opt->iter = 0`, and the report after it. -/
def main_loop {α : Type} [LinearOrderedField α] (R : Routines α) (fuel : Nat)
    (st : main_t α) : Option (main_t α) :=
  main_from R fuel { st with opt := { st.opt with iter := 0 } }

/-- The state at the top of pass `k` (counted from 0) through the body of the loop started
from `st`; `none` when the loop has ended before that pass. -/
def main_at {α : Type} [LinearOrderedField α] (R : Routines α) :
    Nat → main_t α → Option (main_t α)
  | 0, st =>
    let s : main_t α := { st with opt := { st.opt with iter := 0 } }
    if s.opt.iter < s.opt.niter then some s else none
  | k + 1, st =>
    match main_at R k st with
    | none => none
    | some s =>
      match main_body R s with
      | Step.brk _ => none
      | Step.next s1 =>
        if (main_incr s1).opt.iter < (main_incr s1).opt.niter then some (main_incr s1) else none

/-- The direction `opt->d` that pass `s` hands to `line_search`. -/
def main_handed {α : Type} [Field α] (R : Routines α) (s : main_t α) : List α :=
  (main_direction R (main_progress R s)).opt.d

/-! ## Concrete inputs

A set of routines and a start state over `ℚ` on which the definitions above are evaluated. -/

/-- A record with every field cleared, as a freshly zeroed allocation. -/
def demo_zero : optim_t ℚ :=
  { niter := 0, iter := 0, tol := 0, npair := 0, kpair := 0, nls := 0, ils := 0, igrad := 0,
    c1 := 0, c2 := 0, alpha := 0, f0 := 0, fk := 0, gk_norm := 0, x := [], g := [], d := [],
    sk := [], yk := [], q := [], alp := [], rho := [], bound := 0, xmin := [], xmax := [],
    verb := 0, preco := 0, ncg := 0, method := 0, loop1 := false, ls_fail := 0 }

/-- The record at loop entry for the option `method = m` and the flag `verb = v`: the defaults
of `main_config`, two-entry buffers, and the start point `x = (1.5, 1.5)` with its cost and
gradient. -/
def demo_opt (m v : Int) : optim_t ℚ :=
  let opt := main_config (fun s => if s = "method" then some m else none) (fun _ => none)
    { demo_zero with verb := v, d := [0, 0], xmin := [0, 0], xmax := [2, 2] }
  let r := rosenbrock_fg [3 / 2, 3 / 2] [0, 0]
  { opt with x := [3 / 2, 3 / 2], g := r.2, f0 := r.1, fk := r.1 }

/-- The driver state at loop entry for `method = m` and `verb = v`. -/
def demo_state (m v : Int) : main_t ℚ :=
  { opt := demo_opt m v, g0 := [0, 0], iterate_txt := [] }

/-- Stand-ins for the missing routines: the line search takes the step `x + alpha * d`
without any test and reports success; `cg_solve` takes `d = -Hv(x, g)`; `lbfgs_save` counts
its calls in `kpair`; the other l-BFGS routines change nothing; `l2norm` returns the squared
norm, `ℚ` having no square roots. -/
def demo_routines : Routines ℚ :=
  { l2norm := fun n a => dotprod n a a
    lbfgs_save := fun _ o => { o with kpair := o.kpair + 1 }
    lbfgs_update := fun _ o => o
    lbfgs_descent := fun _ o => o
    line_search := fun n fg o =>
      let x := (List.range n).foldl
        (fun x i => x.set i (x.getD i 0 + o.alpha * o.d.getD i 0)) o.x
      let r := fg x o.g
      { o with x := x, g := r.2, fk := r.1, ils := o.ils + 1, igrad := o.igrad + 1, ls_fail := 0 }
    cg_solve := fun n Hv o => flipsign n (Hv o.x o.g o.d) o.d }

/-- Routines whose line search jumps to `x = (1, 1)`, where the cost is `0`, and yet sets
`ls_fail`. -/
def demo_routines_fail : Routines ℚ :=
  { demo_routines with
    line_search := fun _ fg o =>
      let r := fg [1, 1] o.g
      { o with x := [1, 1], g := r.2, fk := r.1, ls_fail := 1 } }

/-! ## Theorems on rosenbrock.c -/

/-- C1: the cost returned by `rosenbrock_fg` at `x = (x1, x2)` is
`(1 - x1)^2 + 100 * (x2 - x1^2)^2`, whatever the buffer `g` holds. -/
theorem rosenbrock_fg_cost (x1 x2 : ℝ) (g : List ℝ) :
    (rosenbrock_fg [x1, x2] g).1 = (1 - x1) ^ 2 + 100 * (x2 - x1 ^ 2) ^ 2 := by
  simp only [rosenbrock_fg, List.getD_cons_zero, List.getD_cons_succ]
  ring

/-- C8, the claim as stated fails: at `x = (0, 0)` the header comment's formula gives
`g[0] = -2*(0 - 1) = 2`, while `rosenbrock_fg` writes `g[0] = -2`. -/
theorem rosenbrock_fg_header_gradient_fails :
    (rosenbrock_fg [(0 : ℝ), 0] [0, 0]).2 = [-2, 0] ∧
      (rosenbrock_fg [(0 : ℝ), 0] [0, 0]).2 ≠
        [-2 * (0 - 1) - 400 * 0 * (0 - 0 ^ 2), 200 * (0 - 0 ^ 2)] := by
  constructor
  · simp [rosenbrock_fg]
  · simp [rosenbrock_fg]
    norm_num

/-- C8, amended: `rosenbrock_fg` writes `g[0] = -2*(1 - x1) - 400*x1*(x2 - x1^2)` and
`g[1] = 200*(x2 - x1^2)` into a two-entry buffer `g`, whatever it held. -/
theorem rosenbrock_fg_gradient_formula (x1 x2 a b : ℝ) :
    (rosenbrock_fg [x1, x2] [a, b]).2 =
      [-2 * (1 - x1) - 400 * x1 * (x2 - x1 ^ 2), 200 * (x2 - x1 ^ 2)] := by
  simp only [rosenbrock_fg, List.getD_cons_zero, List.getD_cons_succ, List.set_cons_zero,
    List.set_cons_succ]
  exact List.cons_eq_cons.mpr ⟨by ring, List.cons_eq_cons.mpr ⟨by ring, rfl⟩⟩

/-- C9, the claim as stated fails: at `x = (0, 0)`, `v = (1, 0)` the header comment's
`dx1x1f = -2 - 400*(x2 - x1^2) + 800*x1^2` gives `Hv[0] = -2`, while `rosenbrock_Hv` writes
`Hv[0] = 2`. -/
theorem rosenbrock_Hv_header_hessian_fails :
    rosenbrock_Hv [(0 : ℝ), 0] [1, 0] [0, 0] = [2, 0] ∧
      rosenbrock_Hv [(0 : ℝ), 0] [1, 0] [0, 0] ≠
        [(-2 - 400 * (0 - 0 ^ 2) + 800 * 0 ^ 2) * 1 + (-400 * 0) * 0,
          (-400 * 0) * 1 + 200 * 0] := by
  constructor
  · simp [rosenbrock_Hv]
  · simp [rosenbrock_Hv]
    norm_num

/-- C9, amended: `rosenbrock_Hv` writes `Hv[0] = dx1x1f*v1 + dx1x2f*v2` and
`Hv[1] = dx1x2f*v1 + dx2x2f*v2` with `dx1x1f = 2 - 400*(x2 - x1^2) + 800*x1^2`,
`dx1x2f = -400*x1` and `dx2x2f = 200`, into a two-entry buffer `Hv`, whatever it held. -/
theorem rosenbrock_Hv_hessian_formula (x1 x2 v1 v2 a b : ℝ) :
    rosenbrock_Hv [x1, x2] [v1, v2] [a, b] =
      [(2 - 400 * (x2 - x1 ^ 2) + 800 * x1 ^ 2) * v1 + (-400 * x1) * v2,
        (-400 * x1) * v1 + 200 * v2] := by
  simp only [rosenbrock_Hv, List.getD_cons_zero, List.getD_cons_succ, List.set_cons_zero,
    List.set_cons_succ]
  exact List.cons_eq_cons.mpr ⟨by ring, List.cons_eq_cons.mpr ⟨by ring, rfl⟩⟩

/-- C10: the cost returned by `rosenbrock_fg` is never negative, it is `0` exactly at
`x = (1, 1)`, and the gradient written to `g` is `(0, 0)` exactly at `x = (1, 1)`; so
`(1, 1)` is the unique global minimiser. -/
theorem rosenbrock_fg_minimiser (x1 x2 a b : ℝ) :
    0 ≤ (rosenbrock_fg [x1, x2] [a, b]).1 ∧
      ((rosenbrock_fg [x1, x2] [a, b]).1 = 0 ↔ x1 = 1 ∧ x2 = 1) ∧
      ((rosenbrock_fg [x1, x2] [a, b]).2 = [0, 0] ↔ x1 = 1 ∧ x2 = 1) ∧
      (rosenbrock_fg [(1 : ℝ), 1] [a, b]).1 ≤ (rosenbrock_fg [x1, x2] [a, b]).1 ∧
      ((rosenbrock_fg [x1, x2] [a, b]).1 ≤ (rosenbrock_fg [(1 : ℝ), 1] [a, b]).1 →
        x1 = 1 ∧ x2 = 1) := by
  have hcost : ∀ y1 y2 : ℝ, (rosenbrock_fg [y1, y2] [a, b]).1 =
      (1 - y1) * (1 - y1) + 100 * (y2 - y1 * y1) * (y2 - y1 * y1) := by
    intro y1 y2
    simp only [rosenbrock_fg, List.getD_cons_zero, List.getD_cons_succ]
  have hgrad : (rosenbrock_fg [x1, x2] [a, b]).2 =
      [-2 * (1 - x1) - 400 * x1 * (x2 - x1 * x1), 200 * (x2 - x1 * x1)] := by
    simp only [rosenbrock_fg, List.getD_cons_zero, List.getD_cons_succ, List.set_cons_zero,
      List.set_cons_succ]
  have hnn : ∀ y1 y2 : ℝ, 0 ≤ (1 - y1) * (1 - y1) + 100 * (y2 - y1 * y1) * (y2 - y1 * y1) := by
    intro y1 y2
    nlinarith [mul_self_nonneg (1 - y1), mul_self_nonneg (y2 - y1 * y1)]
  have hzero : (1 - x1) * (1 - x1) + 100 * (x2 - x1 * x1) * (x2 - x1 * x1) ≤ 0 →
      x1 = 1 ∧ x2 = 1 := by
    intro h
    have h1 : (1 - x1) * (1 - x1) = 0 := by
      nlinarith [mul_self_nonneg (1 - x1), mul_self_nonneg (x2 - x1 * x1)]
    have h2 : (x2 - x1 * x1) * (x2 - x1 * x1) = 0 := by
      nlinarith [mul_self_nonneg (1 - x1), mul_self_nonneg (x2 - x1 * x1)]
    have e1 : x1 = 1 := by
      have := mul_self_eq_zero.mp h1
      linarith
    have e2 : x2 - x1 * x1 = 0 := mul_self_eq_zero.mp h2
    subst e1
    exact ⟨rfl, by linarith⟩
  have hone : (rosenbrock_fg [(1 : ℝ), 1] [a, b]).1 = 0 := by
    rw [hcost]
    norm_num
  refine ⟨?_, ?_, ?_, ?_, ?_⟩
  · rw [hcost]
    exact hnn x1 x2
  · rw [hcost]
    constructor
    · intro h
      exact hzero (le_of_eq h)
    · rintro ⟨rfl, rfl⟩
      norm_num
  · rw [hgrad]
    constructor
    · intro h
      have hg0 : -2 * (1 - x1) - 400 * x1 * (x2 - x1 * x1) = 0 := by
        have := congrArg (fun l => l.getD 0 0) h
        simpa using this
      have hg1 : 200 * (x2 - x1 * x1) = 0 := by
        have := congrArg (fun l => l.getD 1 0) h
        simpa using this
      have e2 : x2 - x1 * x1 = 0 := by linarith
      rw [e2] at hg0
      have e1 : x1 = 1 := by linarith
      subst e1
      exact ⟨rfl, by linarith⟩
    · rintro ⟨rfl, rfl⟩
      norm_num
  · rw [hone, hcost]
    exact hnn x1 x2
  · rw [hone, hcost]
    exact hzero

/-- C2: the vector `g` written by `rosenbrock_fg` at `x = (x1, x2)` has as many entries as
`x`, and is the gradient at `x` of `f(x1, x2) = (1 - x1)^2 + 100*(x2 - x1^2)^2`, which is the
cost the same call returns: `g[0]` is the partial derivative of `f` in `x1`, `g[1]` the
partial derivative of `f` in `x2`, and together they are the total derivative of `f`; the
same holds with the returned cost in the place of `f`. -/
theorem rosenbrock_fg_gradient (x1 x2 a b : ℝ) :
    (rosenbrock_fg [x1, x2] [a, b]).2.length = [x1, x2].length ∧
    (rosenbrock_fg [x1, x2] [a, b]).1 = (1 - x1) ^ 2 + 100 * (x2 - x1 ^ 2) ^ 2 ∧
    HasDerivAt (fun t : ℝ => (1 - t) ^ 2 + 100 * (x2 - t ^ 2) ^ 2)
      ((rosenbrock_fg [x1, x2] [a, b]).2.getD 0 0) x1 ∧
    HasDerivAt (fun t : ℝ => (1 - x1) ^ 2 + 100 * (t - x1 ^ 2) ^ 2)
      ((rosenbrock_fg [x1, x2] [a, b]).2.getD 1 0) x2 ∧
    HasFDerivAt (fun p : ℝ × ℝ => (1 - p.1) ^ 2 + 100 * (p.2 - p.1 ^ 2) ^ 2)
      ((rosenbrock_fg [x1, x2] [a, b]).2.getD 0 0 • ContinuousLinearMap.fst ℝ ℝ ℝ +
        (rosenbrock_fg [x1, x2] [a, b]).2.getD 1 0 • ContinuousLinearMap.snd ℝ ℝ ℝ)
      (x1, x2) ∧
    HasDerivAt (fun t => (rosenbrock_fg [t, x2] [a, b]).1)
      ((rosenbrock_fg [x1, x2] [a, b]).2.getD 0 0) x1 ∧
    HasDerivAt (fun t => (rosenbrock_fg [x1, t] [a, b]).1)
      ((rosenbrock_fg [x1, x2] [a, b]).2.getD 1 0) x2 ∧
    HasFDerivAt (fun p : ℝ × ℝ => (rosenbrock_fg [p.1, p.2] [a, b]).1)
      ((rosenbrock_fg [x1, x2] [a, b]).2.getD 0 0 • ContinuousLinearMap.fst ℝ ℝ ℝ +
        (rosenbrock_fg [x1, x2] [a, b]).2.getD 1 0 • ContinuousLinearMap.snd ℝ ℝ ℝ)
      (x1, x2) := by
  have cost : ∀ y1 y2 : ℝ,
      (rosenbrock_fg [y1, y2] [a, b]).1 = (1 - y1) ^ 2 + 100 * (y2 - y1 ^ 2) ^ 2 := by
    intro y1 y2
    simp only [rosenbrock_fg, List.getD_cons_zero, List.getD_cons_succ]
    ring
  have e1 : (fun t : ℝ => (rosenbrock_fg [t, x2] [a, b]).1) =
      fun t : ℝ => (1 - t) ^ 2 + 100 * (x2 - t ^ 2) ^ 2 := funext fun t => cost t x2
  have e2 : (fun t : ℝ => (rosenbrock_fg [x1, t] [a, b]).1) =
      fun t : ℝ => (1 - x1) ^ 2 + 100 * (t - x1 ^ 2) ^ 2 := funext fun t => cost x1 t
  have e3 : (fun p : ℝ × ℝ => (rosenbrock_fg [p.1, p.2] [a, b]).1) =
      fun p : ℝ × ℝ => (1 - p.1) ^ 2 + 100 * (p.2 - p.1 ^ 2) ^ 2 :=
    funext fun p => cost p.1 p.2
  have d1 : HasDerivAt (fun t => (rosenbrock_fg [t, x2] [a, b]).1)
      ((rosenbrock_fg [x1, x2] [a, b]).2.getD 0 0) x1 := by
    simp only [rosenbrock_fg, List.getD_cons_zero, List.getD_cons_succ, List.set_cons_zero,
      List.set_cons_succ]
    have h1 : HasDerivAt (fun t : ℝ => 1 - t) (-1) x1 := by
      simpa using (hasDerivAt_id x1).const_sub 1
    have h2 : HasDerivAt (fun t : ℝ => x2 - t * t) (-(1 * x1 + x1 * 1)) x1 := by
      simpa using ((hasDerivAt_id x1).mul (hasDerivAt_id x1)).const_sub x2
    have h := (h1.mul h1).add ((h2.const_mul 100).mul h2)
    convert h using 1
    ring
  have d2 : HasDerivAt (fun t => (rosenbrock_fg [x1, t] [a, b]).1)
      ((rosenbrock_fg [x1, x2] [a, b]).2.getD 1 0) x2 := by
    simp only [rosenbrock_fg, List.getD_cons_zero, List.getD_cons_succ, List.set_cons_zero,
      List.set_cons_succ]
    have h1 : HasDerivAt (fun _ : ℝ => 1 - x1) 0 x2 := hasDerivAt_const x2 (1 - x1)
    have h2 : HasDerivAt (fun t : ℝ => t - x1 * x1) 1 x2 := by
      simpa using (hasDerivAt_id x2).sub_const (x1 * x1)
    have h := (h1.mul h1).add ((h2.const_mul 100).mul h2)
    convert h using 1
    ring
  have d3 : HasFDerivAt (fun p : ℝ × ℝ => (rosenbrock_fg [p.1, p.2] [a, b]).1)
      ((rosenbrock_fg [x1, x2] [a, b]).2.getD 0 0 • ContinuousLinearMap.fst ℝ ℝ ℝ +
        (rosenbrock_fg [x1, x2] [a, b]).2.getD 1 0 • ContinuousLinearMap.snd ℝ ℝ ℝ)
      (x1, x2) := by
    simp only [rosenbrock_fg, List.getD_cons_zero, List.getD_cons_succ, List.set_cons_zero,
      List.set_cons_succ]
    have hf : HasFDerivAt (fun p : ℝ × ℝ => p.1) (ContinuousLinearMap.fst ℝ ℝ ℝ) (x1, x2) :=
      hasFDerivAt_fst
    have hs : HasFDerivAt (fun p : ℝ × ℝ => p.2) (ContinuousLinearMap.snd ℝ ℝ ℝ) (x1, x2) :=
      hasFDerivAt_snd
    have h1 := hf.const_sub 1
    have h2 := hs.sub (hf.mul hf)
    have h := (h1.mul h1).add ((h2.const_mul 100).mul h2)
    convert h using 1
    ext <;> simp <;> ring
  exact ⟨rfl, cost x1 x2, e1 ▸ d1, e2 ▸ d2, e3 ▸ d3, d1, d2, d3⟩

/-- C3: the vector written by `rosenbrock_Hv` at `x = (x1, x2)`, `v = (v1, v2)` is `H(x)*v`,
where the entries `h11, h12, h21, h22` of `H(x)` are the partial derivatives of the two
gradient entries written by `rosenbrock_fg`; and it is linear in `v` for fixed `x`. -/
theorem rosenbrock_Hv_is_hessian (x1 x2 v1 v2 a b c e : ℝ) :
    (∃ h11 h12 h21 h22 : ℝ,
      HasDerivAt (fun t => (rosenbrock_fg [t, x2] [a, b]).2.getD 0 0) h11 x1 ∧
      HasDerivAt (fun t => (rosenbrock_fg [x1, t] [a, b]).2.getD 0 0) h12 x2 ∧
      HasDerivAt (fun t => (rosenbrock_fg [t, x2] [a, b]).2.getD 1 0) h21 x1 ∧
      HasDerivAt (fun t => (rosenbrock_fg [x1, t] [a, b]).2.getD 1 0) h22 x2 ∧
      rosenbrock_Hv [x1, x2] [v1, v2] [c, e] = [h11 * v1 + h12 * v2, h21 * v1 + h22 * v2]) ∧
    (∀ r w1 w2 : ℝ,
      rosenbrock_Hv [x1, x2] [r * v1 + w1, r * v2 + w2] [c, e] =
        [r * (rosenbrock_Hv [x1, x2] [v1, v2] [c, e]).getD 0 0 +
            (rosenbrock_Hv [x1, x2] [w1, w2] [c, e]).getD 0 0,
          r * (rosenbrock_Hv [x1, x2] [v1, v2] [c, e]).getD 1 0 +
            (rosenbrock_Hv [x1, x2] [w1, w2] [c, e]).getD 1 0]) := by
  simp only [rosenbrock_fg, rosenbrock_Hv, List.getD_cons_zero, List.getD_cons_succ,
    List.set_cons_zero, List.set_cons_succ]
  constructor
  · refine ⟨1200 * x1 * x1 - 400 * x2 + 2, -400 * x1, -400 * x1, 200, ?_, ?_, ?_, ?_, ?_⟩
    · have h1 : HasDerivAt (fun t : ℝ => 1 - t) (-1) x1 := by
        simpa using (hasDerivAt_id x1).const_sub 1
      have h2 : HasDerivAt (fun t : ℝ => x2 - t * t) (-(1 * x1 + x1 * 1)) x1 := by
        simpa using ((hasDerivAt_id x1).mul (hasDerivAt_id x1)).const_sub x2
      have h := (h1.const_mul (-2)).sub (((hasDerivAt_id x1).const_mul 400).mul h2)
      convert h using 1
      simp only [id]
      ring
    · have h2 : HasDerivAt (fun t : ℝ => t - x1 * x1) 1 x2 := by
        simpa using (hasDerivAt_id x2).sub_const (x1 * x1)
      have h := (h2.const_mul (400 * x1)).const_sub (-2 * (1 - x1))
      convert h using 1
      ring
    · have h2 : HasDerivAt (fun t : ℝ => x2 - t * t) (-(1 * x1 + x1 * 1)) x1 := by
        simpa using ((hasDerivAt_id x1).mul (hasDerivAt_id x1)).const_sub x2
      have h := h2.const_mul 200
      convert h using 1
      ring
    · have h2 : HasDerivAt (fun t : ℝ => t - x1 * x1) 1 x2 := by
        simpa using (hasDerivAt_id x2).sub_const (x1 * x1)
      have h := h2.const_mul 200
      convert h using 1
      ring
    · exact List.cons_eq_cons.mpr ⟨by ring, List.cons_eq_cons.mpr ⟨by ring, rfl⟩⟩
  · intro r w1 w2
    exact List.cons_eq_cons.mpr ⟨by ring, List.cons_eq_cons.mpr ⟨by ring, rfl⟩⟩

/-! ## Theorems on main.c -/

set_option maxHeartbeats 4000000 in
/-- The ten assignments of `main_config` as one record update. -/
theorem main_config_eq {α : Type} [Field α] (getparint : String → Option Int)
    (getparfloat : String → Option α) (opt : optim_t α) :
    main_config getparint getparfloat opt =
      { opt with
        niter := (getparint "niter").getD 100, nls := (getparint "nls").getD 20,
        tol := (getparfloat "tol").getD 1e-8, npair := (getparint "npair").getD 5,
        c1 := (getparfloat "c1").getD 1e-4, c2 := (getparfloat "c2").getD 0.9,
        alpha := (getparfloat "alpha").getD 1, bound := (getparint "bound").getD 0,
        method := (getparint "method").getD 2, ncg := (getparint "ncg").getD 5 } := by
  unfold main_config
  generalize getparint "niter" = o1
  generalize getparint "nls" = o2
  generalize getparfloat "tol" = o3
  generalize getparint "npair" = o4
  generalize getparfloat "c1" = o5
  generalize getparfloat "c2" = o6
  generalize getparfloat "alpha" = o7
  generalize getparint "bound" = o8
  generalize getparint "method" = o9
  generalize getparint "ncg" = o10
  cases o1 <;> cases o2 <;> cases o3 <;> cases o4 <;> cases o5 <;> cases o6 <;> cases o7 <;>
    cases o8 <;> cases o9 <;> cases o10 <;> rfl

/-- C4: each option of the configuration built by `main` is the value the command line
supplies (`getparint` / `getparfloat` return `some v`) and its default otherwise; with no
option supplied the configuration is `niter = 100`, `nls = 20`, `tol = 1e-8`, `npair = 5`,
`c1 = 1e-4`, `c2 = 0.9`, `alpha = 1`, `bound = 0`, `method = 2`, `ncg = 5`. -/
theorem main_config_options (getparint : String → Option Int) (getparfloat : String → Option ℝ)
    (opt : optim_t ℝ) :
    (main_config getparint getparfloat opt).niter = (getparint "niter").getD 100 ∧
    (main_config getparint getparfloat opt).nls = (getparint "nls").getD 20 ∧
    (main_config getparint getparfloat opt).tol = (getparfloat "tol").getD (1 / 100000000) ∧
    (main_config getparint getparfloat opt).npair = (getparint "npair").getD 5 ∧
    (main_config getparint getparfloat opt).c1 = (getparfloat "c1").getD (1 / 10000) ∧
    (main_config getparint getparfloat opt).c2 = (getparfloat "c2").getD (9 / 10) ∧
    (main_config getparint getparfloat opt).alpha = (getparfloat "alpha").getD 1 ∧
    (main_config getparint getparfloat opt).bound = (getparint "bound").getD 0 ∧
    (main_config getparint getparfloat opt).method = (getparint "method").getD 2 ∧
    (main_config getparint getparfloat opt).ncg = (getparint "ncg").getD 5 ∧
    main_config (fun _ => none) (fun _ => none) opt =
      { opt with
        niter := 100, nls := 20, tol := 1 / 100000000, npair := 5, c1 := 1 / 10000,
        c2 := 9 / 10, alpha := 1, bound := 0, method := 2, ncg := 5 } := by
  have h1 : (1e-8 : ℝ) = 1 / 100000000 := by norm_num
  have h2 : (1e-4 : ℝ) = 1 / 10000 := by norm_num
  have h3 : (0.9 : ℝ) = 9 / 10 := by norm_num
  refine ⟨?_, ?_, ?_, ?_, ?_, ?_, ?_, ?_, ?_, ?_, ?_⟩ <;>
    simp only [main_config_eq, h1, h2, h3, Option.getD_none]

/-- The loop `for(i=0; i<n; i++)` of `main` runs `i = 0, 1`. -/
theorem range_main_n : List.range main_n = [0, 1] := rfl

/-- C6, the claim as stated fails: when the line search leaves both `fk < tol * f0` and
`ls_fail` set, the driver ends the loop with `==> Line search failed!` and does not report
convergence; and with `verb = 0` it reports no terminal state at all. -/
theorem main_reports_line_search_failure_first :
    (∃ t, main_loop demo_routines_fail 1 (demo_state 2 1) = some t ∧
      t.opt.fk < t.opt.tol * t.opt.f0 ∧ t.opt.ls_fail ≠ 0 ∧
      t.iterate_txt = [Line.iterate 0 (113 / 2) 1 225901 1 0 0, Line.ls_failed]) ∧
    (∃ t, main_loop demo_routines_fail 1 (demo_state 2 0) = some t ∧
      t.opt.fk < t.opt.tol * t.opt.f0 ∧ t.opt.ls_fail ≠ 0 ∧ t.iterate_txt = []) := by
  have hr : List.range 2 = [0, 1] := rfl
  constructor <;>
  · simp [hr, main_loop, main_from, main_for, main_body, main_check, main_line_search,
      main_direction, main_nlcg, main_progress, main_fprintf, main_exit, demo_state, demo_opt,
      demo_routines_fail, demo_routines, main_config, rosenbrock_fg, demo_zero, memcpy, main_n,
      dotprod]
    norm_num

/-- C6, amended: let `s` be the state after the line search of an iteration whose counter
`k = opt->iter` is below `niter`. The driver decides in this order: LineSearchFailed when
`ls_fail` is set; otherwise Converged when `fk < tol * f0`; otherwise MaxIterReached when
`k = niter - 1`; otherwise the loop goes on with counter `k + 1`. Each terminal state ends the
loop, and when `verb` is set the driver appends to `iterate.txt` the message of that state and
of no other (with `verb = 0` it appends nothing). -/
theorem main_terminal_order {α : Type} [LinearOrderedField α] (R : Routines α) (fuel : Nat)
    (st s : main_t α) (hs : s = main_line_search R (main_direction R (main_progress R st)))
    (hk : st.opt.iter < st.opt.niter) (hks : s.opt.iter < s.opt.niter) :
    (s.opt.ls_fail ≠ 0 →
      main_from R (fuel + 1) st =
        some (if s.opt.verb ≠ 0 then main_fprintf s Line.ls_failed else s)) ∧
    (s.opt.ls_fail = 0 → s.opt.fk < s.opt.tol * s.opt.f0 →
      main_from R (fuel + 1) st =
        some (if s.opt.verb ≠ 0 then main_fprintf s Line.converged else s)) ∧
    (s.opt.ls_fail = 0 → ¬ s.opt.fk < s.opt.tol * s.opt.f0 → s.opt.iter = s.opt.niter - 1 →
      main_from R (fuel + 2) st =
        some (if s.opt.verb ≠ 0 then main_fprintf (main_incr s) Line.max_iter
          else main_incr s)) ∧
    (s.opt.ls_fail = 0 → ¬ s.opt.fk < s.opt.tol * s.opt.f0 → s.opt.iter ≠ s.opt.niter - 1 →
      main_from R (fuel + 1) st = main_from R fuel (main_incr s) ∧
      (main_incr s).opt.iter = s.opt.iter + 1 ∧
      (main_incr s).opt.iter < (main_incr s).opt.niter) := by
  subst hs
  refine ⟨?_, ?_, ?_, ?_⟩
  · intro hl
    simp only [main_from, main_for, hk, if_true, main_body, main_check, hl, ne_eq,
      not_false_eq_true, Option.map_some']
    by_cases hv : (main_line_search R (main_direction R (main_progress R st))).opt.verb = 0
    · simp [main_exit, hv]
    · have hne := ne_of_lt hks
      simp [main_exit, hv, main_fprintf, hne]
  · intro hl hc
    simp only [main_from, main_for, hk, if_true, main_body, main_check, hl, ne_eq,
      not_true_eq_false, if_false, hc, Option.map_some']
    by_cases hv : (main_line_search R (main_direction R (main_progress R st))).opt.verb = 0
    · simp [main_exit, hv]
    · have hne := ne_of_lt hks
      simp [main_exit, hv, main_fprintf, hne]
  · intro hl hc hlast
    have hn : ¬ (main_incr (main_line_search R (main_direction R (main_progress R st)))).opt.iter
        < (main_incr (main_line_search R (main_direction R (main_progress R st)))).opt.niter := by
      simp only [main_incr]
      omega
    have he : (main_incr (main_line_search R (main_direction R (main_progress R st)))).opt.iter
        = (main_incr (main_line_search R (main_direction R (main_progress R st)))).opt.niter := by
      simp only [main_incr]
      omega
    simp only [main_from, main_for, hk, if_true, main_body, main_check, hl, ne_eq,
      not_true_eq_false, if_false, hc, hn, Option.map_some']
    by_cases hv : (main_line_search R (main_direction R (main_progress R st))).opt.verb = 0
    · simp [main_exit, hv, main_incr]
    · have hv2 : (main_incr (main_line_search R (main_direction R
          (main_progress R st)))).opt.verb ≠ 0 := hv
      simp [main_exit, hv, hv2, he]
  · intro hl hc hlast
    refine ⟨?_, rfl, ?_⟩
    · simp only [main_from, main_for, hk, if_true, main_body, main_check, hl, ne_eq,
        not_true_eq_false, if_false, hc]
    · simp only [main_incr]
      omega

/-- C6, an instance: the first pass of the NLCG run from `x = (1.5, 1.5)` with the stand-in
line search neither fails nor converges, and the loop goes on with counter `1`. -/
theorem main_terminal_order_witness :
    (demo_state 2 1).opt.iter < (demo_state 2 1).opt.niter ∧
    main_from demo_routines 4 (demo_state 2 1) =
      main_from demo_routines 3 (main_incr (main_line_search demo_routines
        (main_direction demo_routines (main_progress demo_routines (demo_state 2 1))))) :=
  have hr : List.range 2 = [0, 1] := rfl
  ⟨by decide,
    ((main_terminal_order demo_routines 3 (demo_state 2 1) _ rfl (by decide)
      (by
      simp [hr, main_line_search, main_direction, main_nlcg, main_progress, main_fprintf,
        demo_state, demo_opt, demo_routines, main_config, rosenbrock_fg, demo_zero, memcpy,
        main_n, dotprod])).2.2.2
      (by simp [main_line_search, demo_routines])
      (by
        simp [hr, main_line_search, main_direction, main_nlcg, main_progress, main_fprintf,
          demo_state, demo_opt, demo_routines, main_config, rosenbrock_fg, demo_zero, memcpy,
          main_n, dotprod]
        norm_num)
      (by
        simp [hr, main_line_search, main_direction, main_nlcg, main_progress, main_fprintf,
          demo_state, demo_opt, demo_routines, main_config, rosenbrock_fg, demo_zero, memcpy,
          main_n, dotprod])).1⟩

/-- The progress record changes only `gk_norm` and `iterate.txt`. -/
theorem main_progress_frame {α : Type} [Field α] (R : Routines α) (s : main_t α) :
    (main_progress R s).opt.method = s.opt.method ∧ (main_progress R s).opt.iter = s.opt.iter ∧
    (main_progress R s).opt.g = s.opt.g ∧ (main_progress R s).opt.d = s.opt.d ∧
    (main_progress R s).g0 = s.g0 := by
  unfold main_progress
  split <;> simp [main_fprintf]

/-- A pass that falls through to `iter++` leaves the state of the line search as it is. -/
theorem main_check_next {α : Type} [LinearOrderedField α] (t t1 : main_t α)
    (h : main_check t = Step.next t1) : t1 = t := by
  unfold main_check at h
  split at h
  · cases h
  · split at h
    · cases h
    · cases h
      rfl

/-- Pass `k + 1` starts from the state the line search of pass `k` left, with the counter
incremented. -/
theorem main_at_succ {α : Type} [LinearOrderedField α] (R : Routines α) (k : Nat)
    (st s : main_t α) (h : main_at R (k + 1) st = some s) :
    ∃ sp, main_at R k st = some sp ∧
      main_body R sp =
        Step.next (main_line_search R (main_direction R (main_progress R sp))) ∧
      s = main_incr (main_line_search R (main_direction R (main_progress R sp))) ∧
      s.opt.iter < s.opt.niter := by
  simp only [main_at] at h
  cases hk : main_at R k st with
  | none => simp [hk] at h
  | some sp =>
    simp only [hk] at h
    cases hb : main_body R sp with
    | brk t => simp [hb] at h
    | next t1 =>
      simp only [hb] at h
      have ht : t1 = main_line_search R (main_direction R (main_progress R sp)) :=
        main_check_next _ _ hb
      split at h
      · rename_i hlt
        cases h
        subst ht
        exact ⟨sp, rfl, hb, rfl, hlt⟩
      · cases h

/-- Every pass starts with the counter below `niter`. -/
theorem main_at_lt {α : Type} [LinearOrderedField α] (R : Routines α) (k : Nat)
    (st s : main_t α) (h : main_at R k st = some s) : s.opt.iter < s.opt.niter := by
  cases k with
  | zero =>
    simp only [main_at] at h
    split at h
    · rename_i hlt
      cases h
      exact hlt
    · cases h
  | succ k =>
    obtain ⟨_, _, _, _, hlt⟩ := main_at_succ R k st s h
    exact hlt

/-- The states `main_at` lists are the states the loop passes through: after `k` passes the
loop started from `st` is the loop resumed at `main_at R k st`. -/
theorem main_for_passes {α : Type} [LinearOrderedField α] (R : Routines α) (k : Nat)
    (st s : main_t α) (h : main_at R k st = some s) (fuel : Nat) :
    main_for R (k + fuel) { st with opt := { st.opt with iter := 0 } } = main_for R fuel s := by
  induction k generalizing s fuel with
  | zero =>
    simp only [main_at] at h
    split at h
    · cases h
      simp
    · cases h
  | succ k ih =>
    obtain ⟨sp, hsp, hb, hs, _⟩ := main_at_succ R k st s h
    have hlt := main_at_lt R k st sp hsp
    have e : k + 1 + fuel = k + (fuel + 1) := by omega
    rw [e, ih sp hsp (fuel + 1)]
    simp only [main_for, hlt, if_true, hb, hs]

/-- The dot product of `n = 2` entries. -/
theorem dotprod_main_n {α : Type} [Field α] (a b : List α) :
    dotprod main_n a b = 0 + a.getD 0 0 * b.getD 0 0 + a.getD 1 0 * b.getD 1 0 := by
  simp [dotprod, range_main_n]

/-- The NLCG branch on two-entry buffers `d` and `g0`, entry by entry. -/
theorem main_nlcg_entries {α : Type} [Field α] (t : main_t α) (hd : t.opt.d.length = main_n)
    (hg : t.g0.length = main_n) :
    (main_nlcg t).opt.method = t.opt.method ∧ (main_nlcg t).opt.iter = t.opt.iter ∧
    (main_nlcg t).opt.g = t.opt.g ∧ (main_nlcg t).opt.d.length = main_n ∧
    (main_nlcg t).g0.length = main_n ∧
    (∀ i, i < main_n → (main_nlcg t).g0.getD i 0 = t.opt.g.getD i 0) ∧
    (t.opt.iter = 0 → ∀ i, i < main_n → (main_nlcg t).opt.d.getD i 0 = -(t.opt.g.getD i 0)) ∧
    (t.opt.iter ≠ 0 → ∀ i, i < main_n → (main_nlcg t).opt.d.getD i 0 =
      -(t.opt.g.getD i 0) +
        dotprod main_n t.opt.g t.opt.g / dotprod main_n t.g0 t.g0 * t.opt.d.getD i 0) := by
  obtain ⟨opt, g0, txt⟩ := t
  obtain ⟨a, b, hab⟩ : ∃ a b, opt.d = [a, b] := by
    rcases hdd : opt.d with _ | ⟨a, _ | ⟨b, _ | ⟨c, l⟩⟩⟩ <;> simp [hdd, main_n] at hd
    exact ⟨a, b, rfl⟩
  obtain ⟨p, q, hpq⟩ : ∃ p q, g0 = [p, q] := by
    rcases g0 with _ | ⟨p, _ | ⟨q, _ | ⟨c, l⟩⟩⟩ <;> simp [main_n] at hg
    exact ⟨p, q, rfl⟩
  subst hpq
  have two : ∀ i, i < main_n → i = 0 ∨ i = 1 := by
    intro i hi
    simp only [main_n] at hi
    omega
  have hr : List.range 2 = [0, 1] := rfl
  refine ⟨rfl, rfl, rfl, ?_, ?_, ?_, ?_, ?_⟩
  · by_cases h0 : opt.iter = 0 <;> simp [main_nlcg, h0, hab, hr, main_n]
  · simp [main_nlcg, memcpy, hr, main_n]
  · intro i hi
    rcases two i hi with rfl | rfl <;> simp [main_nlcg, memcpy, hr, main_n]
  · intro h0 i hi
    have h0 : opt.iter = 0 := h0
    rcases two i hi with rfl | rfl <;> simp [main_nlcg, h0, hab, hr, main_n]
  · intro h0 i hi
    have h0 : ¬ opt.iter = 0 := h0
    rcases two i hi with rfl | rfl <;> simp [main_nlcg, h0, hab, hr, main_n]

/-- With `method = 2` the dispatch takes the NLCG branch. -/
theorem main_direction_nlcg {α : Type} [Field α] (R : Routines α) (t : main_t α)
    (h : t.opt.method = 2) : main_direction R t = main_nlcg t := by
  simp [main_direction, h]

/-- What a pass of the NLCG run hands on, when the line search leaves `d`, `method` and `iter`
as they are: `method = 2` and the buffer sizes are kept, and the counter goes up by one. -/
theorem main_nlcg_pass {α : Type} [LinearOrderedField α] (R : Routines α)
    (hd : ∀ t, (R.line_search main_n rosenbrock_fg t).d = t.d)
    (hmeth : ∀ t, (R.line_search main_n rosenbrock_fg t).method = t.method)
    (hiter : ∀ t, (R.line_search main_n rosenbrock_fg t).iter = t.iter)
    (sp : main_t α) (h2 : sp.opt.method = 2) (hdl : sp.opt.d.length = main_n)
    (hgl : sp.g0.length = main_n) :
    (main_incr (main_line_search R (main_direction R (main_progress R sp)))).opt.method = 2 ∧
    (main_incr (main_line_search R (main_direction R (main_progress R sp)))).opt.d
      = main_handed R sp ∧
    (main_incr (main_line_search R (main_direction R (main_progress R sp)))).opt.d.length
      = main_n ∧
    (main_incr (main_line_search R (main_direction R (main_progress R sp)))).g0.length
      = main_n ∧
    (main_incr (main_line_search R (main_direction R (main_progress R sp)))).opt.iter
      = sp.opt.iter + 1 ∧
    (∀ i, i < main_n →
      (main_incr (main_line_search R (main_direction R (main_progress R sp)))).g0.getD i 0
        = sp.opt.g.getD i 0) := by
  obtain ⟨pm, pi, pg, pd, pg0⟩ := main_progress_frame R sp
  have e := main_direction_nlcg R (main_progress R sp) (pm.trans h2)
  obtain ⟨nm, ni, _, ndl, ngl, ng0, _, _⟩ :=
    main_nlcg_entries (main_progress R sp) (pd ▸ hdl) (pg0 ▸ hgl)
  simp only [main_handed, main_incr, main_line_search, e, hd, hmeth, hiter]
  refine ⟨nm.trans (pm.trans h2), trivial, ndl, ngl, ?_, ?_⟩
  · rw [ni, pi]
  · intro i hi
    rw [ng0 i hi, pg]

/-- Every pass of the NLCG run starts with `method = 2`, two-entry buffers `d` and `g0`, and
the counter equal to the number of the pass. -/
theorem main_at_nlcg {α : Type} [LinearOrderedField α] (R : Routines α) (st : main_t α)
    (hd : ∀ t, (R.line_search main_n rosenbrock_fg t).d = t.d)
    (hmeth : ∀ t, (R.line_search main_n rosenbrock_fg t).method = t.method)
    (hiter : ∀ t, (R.line_search main_n rosenbrock_fg t).iter = t.iter)
    (h2 : st.opt.method = 2) (hdl : st.opt.d.length = main_n) (hgl : st.g0.length = main_n)
    (k : Nat) (s : main_t α) (h : main_at R k st = some s) :
    s.opt.method = 2 ∧ s.opt.d.length = main_n ∧ s.g0.length = main_n ∧ s.opt.iter = k := by
  induction k generalizing s with
  | zero =>
    simp only [main_at] at h
    split at h
    · cases h
      exact ⟨h2, hdl, hgl, rfl⟩
    · cases h
  | succ k ih =>
    obtain ⟨sp, hsp, _, hs, _⟩ := main_at_succ R k st s h
    obtain ⟨im, idl, igl, ii⟩ := ih sp hsp
    obtain ⟨a, _, b, c, e, _⟩ := main_nlcg_pass R hd hmeth hiter sp im idl igl
    subst hs
    refine ⟨a, b, c, ?_⟩
    rw [e, ii]
    push_cast
    rfl

/-- C5: in the driver loop with `method = 2`, for a line search that leaves `d` (and the
loop counter and `method`) unchanged and buffers `d`, `g0` of `n = 2` entries as `main`
allocates them: iteration 0 takes place when `niter > 0`, the direction handed to the line
search at iteration 0 is `-g_0`, and at iteration `k + 1` it is `-g_{k+1} + beta * d_k` with
`beta = dot(g_{k+1}, g_{k+1}) / dot(g_k, g_k)`, where `g_k` is the gradient held at the start
of iteration `k`, which the copy `g0` holds, and `d_k` is the direction handed over at
iteration `k`, which `opt->d` still holds. -/
theorem main_nlcg_directions {α : Type} [LinearOrderedField α] (R : Routines α) (st : main_t α)
    (hd : ∀ t, (R.line_search main_n rosenbrock_fg t).d = t.d)
    (hmeth : ∀ t, (R.line_search main_n rosenbrock_fg t).method = t.method)
    (hiter : ∀ t, (R.line_search main_n rosenbrock_fg t).iter = t.iter)
    (h2 : st.opt.method = 2) (hdl : st.opt.d.length = main_n) (hgl : st.g0.length = main_n) :
    (0 < st.opt.niter → ∃ s0, main_at R 0 st = some s0) ∧
    (∀ s0, main_at R 0 st = some s0 →
      ∀ i, i < main_n → (main_handed R s0).getD i 0 = -(s0.opt.g.getD i 0)) ∧
    (∀ k sp s, main_at R k st = some sp → main_at R (k + 1) st = some s →
      sp.opt.iter = k ∧ s.opt.iter = k + 1 ∧
      (∀ i, i < main_n → s.g0.getD i 0 = sp.opt.g.getD i 0) ∧
      s.opt.d = main_handed R sp ∧
      ∀ i, i < main_n → (main_handed R s).getD i 0 =
        -(s.opt.g.getD i 0) +
          dotprod main_n s.opt.g s.opt.g / dotprod main_n sp.opt.g sp.opt.g *
            (main_handed R sp).getD i 0) := by
  have handed : ∀ (k : Nat) (s : main_t α), main_at R k st = some s →
      (s.opt.iter = 0 → ∀ i, i < main_n → (main_handed R s).getD i 0 = -(s.opt.g.getD i 0)) ∧
      (s.opt.iter ≠ 0 → ∀ i, i < main_n → (main_handed R s).getD i 0 =
        -(s.opt.g.getD i 0) +
          dotprod main_n s.opt.g s.opt.g / dotprod main_n s.g0 s.g0 * s.opt.d.getD i 0) := by
    intro k s hs
    obtain ⟨im, idl, igl, _⟩ := main_at_nlcg R st hd hmeth hiter h2 hdl hgl k s hs
    obtain ⟨pm, pi, pg, pd, pg0⟩ := main_progress_frame R s
    have e := main_direction_nlcg R (main_progress R s) (pm.trans im)
    obtain ⟨_, _, _, _, _, _, n0, n1⟩ :=
      main_nlcg_entries (main_progress R s) (pd ▸ idl) (pg0 ▸ igl)
    simp only [main_handed, e]
    rw [pi, pg] at n0
    rw [pi, pg, pd, pg0] at n1
    exact ⟨n0, n1⟩
  refine ⟨?_, ?_, ?_⟩
  · intro hpos
    simp [main_at, hpos]
  · intro s0 h0 i hi
    obtain ⟨_, _, _, ii⟩ := main_at_nlcg R st hd hmeth hiter h2 hdl hgl 0 s0 h0
    exact (handed 0 s0 h0).1 (by simpa using ii) i hi
  · intro k sp s hsp hs
    obtain ⟨im, idl, igl, ii⟩ := main_at_nlcg R st hd hmeth hiter h2 hdl hgl k sp hsp
    obtain ⟨_, _, _, ii1⟩ := main_at_nlcg R st hd hmeth hiter h2 hdl hgl (k + 1) s hs
    obtain ⟨sp1, hsp1, _, hse, _⟩ := main_at_succ R k st s hs
    have hsame : sp1 = sp := Option.some.inj (hsp1.symm.trans hsp)
    subst hsame
    obtain ⟨_, ed, _, _, _, eg0⟩ := main_nlcg_pass R hd hmeth hiter sp1 im idl igl
    rw [← hse] at ed eg0
    have hne : s.opt.iter ≠ 0 := by
      rw [ii1]
      push_cast
      omega
    have hdot : dotprod main_n s.g0 s.g0 = dotprod main_n sp1.opt.g sp1.opt.g := by
      rw [dotprod_main_n, dotprod_main_n, eg0 0 (by decide), eg0 1 (by decide)]
    refine ⟨ii, by rw [ii1]; push_cast; rfl, eg0, ed, fun i hi => ?_⟩
    rw [(handed (k + 1) s hs).2 hne i hi, hdot, ed]

/-- The NLCG run from `x = (1.5, 1.5)` with the stand-in line search reaches its second
pass, at `x = (-449.5, 151.5)`. -/
theorem demo_second_pass :
    ∃ s0 s1, main_at demo_routines 0 (demo_state 2 0) = some s0 ∧
      main_at demo_routines 1 (demo_state 2 0) = some s1 ∧
      s0.opt.g = [451, -150] ∧ s1.opt.x = [-899 / 2, 303 / 2] ∧
      s1.opt.g = [-36301396151, -40379750] := by
  have hr : List.range 2 = [0, 1] := rfl
  simp [hr, main_at, main_body, main_check, main_incr, main_line_search, main_direction,
    main_nlcg, main_progress, main_fprintf, demo_state, demo_opt, demo_routines, main_config,
    rosenbrock_fg, demo_zero, memcpy, main_n, dotprod]
  norm_num

/-- C5, an instance: in the NLCG run from `x = (1.5, 1.5)` with the stand-in line search, the
direction of the second pass is `-g_1 + beta * d_0` with
`beta = dot(g_1, g_1) / dot(g_0, g_0)`. -/
theorem main_nlcg_directions_witness :
    (demo_state 2 0).opt.method = 2 ∧ (demo_state 2 0).opt.d.length = main_n ∧
    (demo_state 2 0).g0.length = main_n ∧
    ∃ s0 s1, main_at demo_routines 0 (demo_state 2 0) = some s0 ∧
      main_at demo_routines 1 (demo_state 2 0) = some s1 ∧
      (∀ i, i < main_n → (main_handed demo_routines s0).getD i 0 = -(s0.opt.g.getD i 0)) ∧
      ∀ i, i < main_n → (main_handed demo_routines s1).getD i 0 =
        -(s1.opt.g.getD i 0) +
          dotprod main_n s1.opt.g s1.opt.g / dotprod main_n s0.opt.g s0.opt.g *
            (main_handed demo_routines s0).getD i 0 := by
  obtain ⟨s0, s1, h0, h1, _⟩ := demo_second_pass
  have h := main_nlcg_directions demo_routines (demo_state 2 0) (fun _ => rfl)
    (fun _ => rfl) (fun _ => rfl) (by decide) (by decide) (by decide)
  exact ⟨by decide, by decide, by decide, s0, s1, h0, h1, h.2.1 s0 h0,
    (h.2.2 0 s0 s1 h0 h1).2.2.2.2⟩

end Rosenbrock
